import Mathlib

/-!
Verification of the transaction lifecycle orchestrator of the Gasless-NFT-Minter
backend: the confirmation poller (`CircleService.waitForTransaction`), the mint
orchestrator (`NFTService.mintNFT`), the metadata publisher
(`NFTService.uploadMetadataToIPFS`), the receipt parser
(`BlockchainService.getTokenIdFromTransaction`) and the batch-mint handler.
External collaborators (Circle API, chain RPC, Pinata) are modelled as oracles
supplied as function arguments; exceptions are modelled with `Except String`.
-/

namespace GaslessNFT

/-! ## JS `String.prototype.includes`, modelled on character lists -/

/-- `listStartsWith s pat` holds when `pat` is an initial segment of `s`
(character-list version of JS `startsWith`). -/
def listStartsWith : List Char → List Char → Bool
  | _, [] => true
  | [], _ :: _ => false
  | c :: cs, d :: ds => c == d && listStartsWith cs ds

/-- `listContains s pat`: `pat` occurs contiguously somewhere in `s`. -/
def listContains : List Char → List Char → Bool
  | [], pat => listStartsWith [] pat
  | c :: cs, pat => listStartsWith (c :: cs) pat || listContains cs pat

/-- JS `s.includes(pat)`. -/
def strIncludes (s pat : String) : Bool :=
  listContains s.data pat.data

theorem listStartsWith_nil (s : List Char) : listStartsWith s [] = true := by
  cases s <;> rfl

theorem listStartsWith_append (pat xs ys : List Char)
    (h : listStartsWith xs pat = true) : listStartsWith (xs ++ ys) pat = true := by
  induction pat generalizing xs with
  | nil => exact listStartsWith_nil _
  | cons d ds ih =>
    cases xs with
    | nil => simp [listStartsWith] at h
    | cons c cs =>
      simp only [List.cons_append, listStartsWith, Bool.and_eq_true] at h ⊢
      exact ⟨h.1, ih cs h.2⟩

theorem listContains_of_startsWith (s pat : List Char)
    (h : listStartsWith s pat = true) : listContains s pat = true := by
  cases s with
  | nil => exact h
  | cons c cs => simp [listContains, h]

/-- A string built by appending after a prefix that starts with `pat`
contains `pat`; used for the poller's `includes('Transaction failed')` test. -/
theorem strIncludes_append (p r pat : String)
    (h : listStartsWith p.data pat.data = true) :
    strIncludes (p ++ r) pat = true := by
  have hdata : (p ++ r).data = p.data ++ r.data := rfl
  unfold strIncludes
  rw [hdata]
  exact listContains_of_startsWith _ _ (listStartsWith_append _ _ _ h)

/-! ## Transaction poller — `CircleService.waitForTransaction`
(src/backend/src/services/userService.ts, lines 478-518)

The provider is an oracle `getStatus : Nat → Except String TransactionResponse`
giving the outcome of the i-th status query: `.ok` a transaction status, or
`.error` the raw message of a thrown query error.  `getTransactionStatus` wraps
such errors as `CircleApiError("Get transaction status failed: " ++ msg)`.
Time is idealized: queries are instantaneous and each `setTimeout(pollInterval)`
advances elapsed time by exactly `pollInterval` ms.  The result is the returned
status (`.ok`) or the message of the raised error (`.error`), paired with the
number of status queries issued; `none` marks exhaustion of the model's step
budget, which never happens when `0 < pollInterval` at the fuel used below. -/

deriving instance DecidableEq for Except

structure TransactionResponse where
  state : String
  txHash : Option String := none
  errorReason : Option String := none
deriving Repr, DecidableEq

/-- Message of the `CircleApiError` thrown by `getTransactionStatus`. -/
def statusQueryErrorMessage (e : String) : String :=
  "Get transaction status failed: " ++ e

/-- Message of the error thrown on a `FAILED` state:
`Transaction failed: ${status.data?.errorReason || 'Unknown error'}`. -/
def failedMessage (status : TransactionResponse) : String :=
  "Transaction failed: " ++ status.errorReason.getD "Unknown error"

/-- Message of the timeout error thrown after the loop exits. -/
def timeoutMessage (transactionId : String) (maxWaitTime : Nat) : String :=
  "Transaction " ++ transactionId ++ " confirmation timeout after " ++
    toString maxWaitTime ++ "ms"

/-- The poll loop body.  `k` is the index of the next status query, `elapsed`
the idealized elapsed milliseconds.  The `catch` block of the source rethrows
exactly those errors whose message contains the substring `Transaction failed`
(JS `error.message.includes('Transaction failed')`); all other errors are
swallowed: sleep one interval and continue. -/
def pollLoop (getStatus : Nat → Except String TransactionResponse)
    (transactionId : String) (maxWaitTime pollInterval : Nat) :
    Nat → Nat → Nat → Option (Except String TransactionResponse × Nat)
  | fuel, k, elapsed =>
    if elapsed < maxWaitTime then
      match fuel with
      | 0 => none
      | fuel' + 1 =>
        match getStatus k with
        | .ok status =>
          if status.state == "CONFIRMED" then
            some (.ok status, k + 1)
          else if status.state == "FAILED" then
            if strIncludes (failedMessage status) "Transaction failed" then
              some (.error (failedMessage status), k + 1)
            else
              pollLoop getStatus transactionId maxWaitTime pollInterval fuel'
                (k + 1) (elapsed + pollInterval)
          else
            pollLoop getStatus transactionId maxWaitTime pollInterval fuel'
              (k + 1) (elapsed + pollInterval)
        | .error e =>
          if strIncludes (statusQueryErrorMessage e) "Transaction failed" then
            some (.error (statusQueryErrorMessage e), k + 1)
          else
            pollLoop getStatus transactionId maxWaitTime pollInterval fuel'
              (k + 1) (elapsed + pollInterval)
    else
      some (.error (timeoutMessage transactionId maxWaitTime), k)

/-- `waitForTransaction(transactionId, maxWaitTime, pollInterval)`:
run the poll loop from time 0.  Fuel `maxWaitTime + 1` is enough for every
positive `pollInterval` since each iteration advances `elapsed` by at least 1. -/
def waitForTransaction (getStatus : Nat → Except String TransactionResponse)
    (transactionId : String) (maxWaitTime pollInterval : Nat) :
    Option (Except String TransactionResponse × Nat) :=
  pollLoop getStatus transactionId maxWaitTime pollInterval
    (maxWaitTime + 1) 0 0

/-- A poll outcome on which the loop keeps going: a non-terminal status, or a
query error whose wrapped message does not contain `Transaction failed`. -/
def keepsPolling (r : Except String TransactionResponse) : Prop :=
  (∃ s, r = .ok s ∧ s.state ≠ "CONFIRMED" ∧ s.state ≠ "FAILED") ∨
  (∃ e, r = .error e ∧
    strIncludes (statusQueryErrorMessage e) "Transaction failed" = false)

theorem pollLoop_step (getStatus : Nat → Except String TransactionResponse)
    (transactionId : String) (maxWaitTime pollInterval fuel k elapsed : Nat)
    (hlt : elapsed < maxWaitTime) (hkp : keepsPolling (getStatus k)) :
    pollLoop getStatus transactionId maxWaitTime pollInterval (fuel + 1) k elapsed =
      pollLoop getStatus transactionId maxWaitTime pollInterval fuel
        (k + 1) (elapsed + pollInterval) := by
  rcases hkp with ⟨s, hs, hc, hf⟩ | ⟨e, he, hinc⟩
  · rw [pollLoop, if_pos hlt, hs]
    simp [hc, hf]
  · rw [pollLoop, if_pos hlt, he]
    simp [hinc]

theorem pollLoop_skip (getStatus : Nat → Except String TransactionResponse)
    (transactionId : String) (maxWaitTime pollInterval : Nat) (n : Nat) :
    ∀ fuel k elapsed, n < fuel → elapsed + n * pollInterval < maxWaitTime →
    (∀ i, i < n → keepsPolling (getStatus (k + i))) →
    pollLoop getStatus transactionId maxWaitTime pollInterval fuel k elapsed =
      pollLoop getStatus transactionId maxWaitTime pollInterval (fuel - n)
        (k + n) (elapsed + n * pollInterval) := by
  induction n with
  | zero => intro fuel k elapsed _ _ _; simp
  | succ n ih =>
    intro fuel k elapsed hfuel helapsed hprev
    obtain ⟨fuel', rfl⟩ : ∃ f, fuel = f + 1 :=
      ⟨fuel - 1, by omega⟩
    have hlt : elapsed < maxWaitTime := by
      have : elapsed ≤ elapsed + (n + 1) * pollInterval := Nat.le_add_right _ _
      omega
    rw [pollLoop_step getStatus transactionId maxWaitTime pollInterval fuel' k
      elapsed hlt (by simpa using hprev 0 (Nat.succ_pos n))]
    have harith : elapsed + pollInterval + n * pollInterval =
        elapsed + (n + 1) * pollInterval := by ring
    have hel' : elapsed + pollInterval + n * pollInterval < maxWaitTime := by
      rw [harith]; exact helapsed
    have hprev' : ∀ i, i < n → keepsPolling (getStatus (k + 1 + i)) := by
      intro i hi
      have := hprev (i + 1) (by omega)
      have hidx : k + (i + 1) = k + 1 + i := by omega
      rwa [hidx] at this
    rw [ih fuel' (k + 1) (elapsed + pollInterval) (by omega) hel' hprev']
    have h1 : fuel' - n = fuel' + 1 - (n + 1) := by omega
    have h2 : k + 1 + n = k + (n + 1) := by omega
    rw [h1, h2, harith]

/-- The thrown `FAILED` message always contains `Transaction failed`, so the
catch block always rethrows it. -/
theorem failedMessage_includes (s : TransactionResponse) :
    strIncludes (failedMessage s) "Transaction failed" = true :=
  strIncludes_append "Transaction failed: " (s.errorReason.getD "Unknown error")
    "Transaction failed" (by decide)

theorem pollLoop_confirmedExit (getStatus : Nat → Except String TransactionResponse)
    (transactionId : String) (maxWaitTime pollInterval fuel k elapsed : Nat)
    (s : TransactionResponse) (hlt : elapsed < maxWaitTime)
    (hks : getStatus k = .ok s) (hstate : s.state = "CONFIRMED") :
    pollLoop getStatus transactionId maxWaitTime pollInterval (fuel + 1) k elapsed =
      some (.ok s, k + 1) := by
  rw [pollLoop, if_pos hlt, hks]
  simp [hstate]

theorem pollLoop_failedExit (getStatus : Nat → Except String TransactionResponse)
    (transactionId : String) (maxWaitTime pollInterval fuel k elapsed : Nat)
    (s : TransactionResponse) (hlt : elapsed < maxWaitTime)
    (hks : getStatus k = .ok s) (hstate : s.state = "FAILED") :
    pollLoop getStatus transactionId maxWaitTime pollInterval (fuel + 1) k elapsed =
      some (.error (failedMessage s), k + 1) := by
  rw [pollLoop, if_pos hlt, hks]
  simp [hstate, failedMessage_includes]

/-- Reaching a `CONFIRMED` poll after `k` polls on which the loop keeps going. -/
theorem waitForTransaction_confirm_reach
    (getStatus : Nat → Except String TransactionResponse)
    (transactionId : String) (maxWaitTime pollInterval k : Nat)
    (s : TransactionResponse) (hpi : 0 < pollInterval)
    (hk : k * pollInterval < maxWaitTime)
    (hprev : ∀ i, i < k → keepsPolling (getStatus i))
    (hks : getStatus k = .ok s) (hstate : s.state = "CONFIRMED") :
    waitForTransaction getStatus transactionId maxWaitTime pollInterval =
      some (.ok s, k + 1) := by
  unfold waitForTransaction
  have hkle : k ≤ k * pollInterval := Nat.le_mul_of_pos_right k hpi
  rw [pollLoop_skip getStatus transactionId maxWaitTime pollInterval k
    (maxWaitTime + 1) 0 0 (by omega) (by simpa using hk) (by simpa using hprev)]
  obtain ⟨f, hf⟩ : ∃ f, maxWaitTime + 1 - k = f + 1 := ⟨maxWaitTime - k, by omega⟩
  simp only [Nat.zero_add]
  rw [hf]
  exact pollLoop_confirmedExit getStatus transactionId maxWaitTime pollInterval
    f k (k * pollInterval) s hk hks hstate

/-- Reaching a `FAILED` poll after `k` polls on which the loop keeps going. -/
theorem waitForTransaction_failed_reach
    (getStatus : Nat → Except String TransactionResponse)
    (transactionId : String) (maxWaitTime pollInterval k : Nat)
    (s : TransactionResponse) (hpi : 0 < pollInterval)
    (hk : k * pollInterval < maxWaitTime)
    (hprev : ∀ i, i < k → keepsPolling (getStatus i))
    (hks : getStatus k = .ok s) (hstate : s.state = "FAILED") :
    waitForTransaction getStatus transactionId maxWaitTime pollInterval =
      some (.error (failedMessage s), k + 1) := by
  unfold waitForTransaction
  have hkle : k ≤ k * pollInterval := Nat.le_mul_of_pos_right k hpi
  rw [pollLoop_skip getStatus transactionId maxWaitTime pollInterval k
    (maxWaitTime + 1) 0 0 (by omega) (by simpa using hk) (by simpa using hprev)]
  obtain ⟨f, hf⟩ : ∃ f, maxWaitTime + 1 - k = f + 1 := ⟨maxWaitTime - k, by omega⟩
  simp only [Nat.zero_add]
  rw [hf]
  exact pollLoop_failedExit getStatus transactionId maxWaitTime pollInterval
    f k (k * pollInterval) s hk hks hstate

/-- If every poll keeps the loop going, it exits by timeout once `elapsed`
reaches `maxWaitTime`, having issued one poll per full interval. -/
theorem pollLoop_timeout (getStatus : Nat → Except String TransactionResponse)
    (transactionId : String) (maxWaitTime pollInterval : Nat)
    (hpi : 0 < pollInterval) (hall : ∀ i, keepsPolling (getStatus i)) :
    ∀ fuel k elapsed, maxWaitTime ≤ elapsed + fuel →
    ∃ m, pollLoop getStatus transactionId maxWaitTime pollInterval fuel k elapsed =
        some (.error (timeoutMessage transactionId maxWaitTime), k + m) ∧
      maxWaitTime ≤ elapsed + m * pollInterval ∧
      (0 < m → elapsed + (m - 1) * pollInterval < maxWaitTime) ∧
      (m = 0 → maxWaitTime ≤ elapsed) := by
  intro fuel
  induction fuel with
  | zero =>
    intro k elapsed hfe
    refine ⟨0, ?_,
      by simp only [Nat.zero_mul, Nat.add_zero]; omega,
      fun h => (Nat.lt_irrefl 0 h).elim,
      fun _ => by omega⟩
    rw [pollLoop, if_neg (by omega)]
    simp
  | succ fuel ih =>
    intro k elapsed hfe
    by_cases hlt : elapsed < maxWaitTime
    · rw [pollLoop_step getStatus transactionId maxWaitTime pollInterval fuel k
        elapsed hlt (hall k)]
      obtain ⟨m', heq, h1, h2, h3⟩ := ih (k + 1) (elapsed + pollInterval) (by omega)
      have harith : elapsed + pollInterval + m' * pollInterval =
          elapsed + (m' + 1) * pollInterval := by ring
      refine ⟨m' + 1, ?_, ?_, ?_, fun h => (Nat.succ_ne_zero m' h).elim⟩
      · rw [heq]
        have hidx : k + 1 + m' = k + (m' + 1) := by omega
        rw [hidx]
      · have h1' := h1
        rw [harith] at h1'
        exact h1'
      · intro _
        rcases Nat.eq_zero_or_pos m' with hm | hm
        · subst hm
          simpa using hlt
        · have hx := h2 hm
          obtain ⟨t, rfl⟩ : ∃ t, m' = t + 1 := ⟨m' - 1, by omega⟩
          have harith2 : elapsed + pollInterval + (t + 1 - 1) * pollInterval =
              elapsed + (t + 1 + 1 - 1) * pollInterval := by
            simp only [Nat.add_sub_cancel]
            ring
          rw [harith2] at hx
          exact hx
    · refine ⟨0, ?_,
        by simp only [Nat.zero_mul, Nat.add_zero]; omega,
        fun h => (Nat.lt_irrefl 0 h).elim,
        fun _ => by omega⟩
      rw [pollLoop, if_neg hlt]
      simp

/-- C1: if the polls before poll `k` all return non-terminal states and poll
`k` observes `CONFIRMED` while the timeout budget is not exhausted, then
`waitForTransaction` returns the confirmed status immediately on that poll —
after exactly `k + 1` status queries, at elapsed time `k * pollInterval`, not
waiting out the remaining `maxWaitTime`. -/
theorem waitForTransaction_confirmed_immediate
    (getStatus : Nat → Except String TransactionResponse)
    (transactionId : String) (maxWaitTime pollInterval k : Nat)
    (s : TransactionResponse) (hpi : 0 < pollInterval)
    (hk : k * pollInterval < maxWaitTime)
    (hprev : ∀ i, i < k → ∃ si, getStatus i = .ok si ∧
      si.state ≠ "CONFIRMED" ∧ si.state ≠ "FAILED")
    (hks : getStatus k = .ok s) (hstate : s.state = "CONFIRMED") :
    waitForTransaction getStatus transactionId maxWaitTime pollInterval =
      some (.ok s, k + 1) :=
  waitForTransaction_confirm_reach getStatus transactionId maxWaitTime
    pollInterval k s hpi hk (fun i hi => Or.inl (hprev i hi)) hks hstate

/-- C1 witness: a provider returning `SENT` twice then `CONFIRMED`; the poller
returns the confirmed result after 3 polls. -/
theorem waitForTransaction_confirmed_immediate_witness :
    waitForTransaction
      (fun i => if i < 2 then .ok ⟨"SENT", none, none⟩
        else .ok ⟨"CONFIRMED", some "0xabc", none⟩)
      "tx-1" 120000 3000 = some (.ok ⟨"CONFIRMED", some "0xabc", none⟩, 3) := by
  have h := waitForTransaction_confirmed_immediate
    (fun i => if i < 2 then .ok ⟨"SENT", none, none⟩
      else .ok ⟨"CONFIRMED", some "0xabc", none⟩)
    "tx-1" 120000 3000 2 ⟨"CONFIRMED", some "0xabc", none⟩
    (by decide) (by decide)
    (fun i hi => ⟨⟨"SENT", none, none⟩, by
      have : i < 2 := hi
      simp [this], by decide, by decide⟩)
    rfl rfl
  exact h

/-- C2: if the polls before poll `k` keep the loop going and poll `k` observes
`FAILED`, the poller raises the transaction-failure error carrying the failure
reason immediately on that poll — after `k + 1` status queries, without waiting
out the full `maxWaitTime` budget. -/
theorem waitForTransaction_failed_fastFail
    (getStatus : Nat → Except String TransactionResponse)
    (transactionId : String) (maxWaitTime pollInterval k : Nat)
    (s : TransactionResponse) (hpi : 0 < pollInterval)
    (hk : k * pollInterval < maxWaitTime)
    (hprev : ∀ i, i < k → ∃ si, getStatus i = .ok si ∧
      si.state ≠ "CONFIRMED" ∧ si.state ≠ "FAILED")
    (hks : getStatus k = .ok s) (hstate : s.state = "FAILED") :
    waitForTransaction getStatus transactionId maxWaitTime pollInterval =
      some (.error ("Transaction failed: " ++ s.errorReason.getD "Unknown error"),
        k + 1) :=
  waitForTransaction_failed_reach getStatus transactionId maxWaitTime
    pollInterval k s hpi hk (fun i hi => Or.inl (hprev i hi)) hks hstate

/-- C2 witness: a provider reporting `FAILED` on the very first poll; the
poller raises after one poll with the provider's failure reason. -/
theorem waitForTransaction_failed_fastFail_witness :
    waitForTransaction (fun _ => .ok ⟨"FAILED", none, some "reverted"⟩)
      "tx-2" 120000 3000 =
      some (.error "Transaction failed: reverted", 1) := by
  have h := waitForTransaction_failed_fastFail
    (fun _ => .ok ⟨"FAILED", none, some "reverted"⟩)
    "tx-2" 120000 3000 0 ⟨"FAILED", none, some "reverted"⟩
    (by decide) (by decide)
    (fun i hi => (Nat.not_lt_zero i hi).elim)
    rfl rfl
  exact h

/-- C3: if no poll ever observes `CONFIRMED` or `FAILED` (the provider always
returns a non-terminal state such as `QUEUED`), the poller raises the timeout
error identifying the transaction id and `maxWaitTime`, once elapsed time
reaches `maxWaitTime`: it issues `n` polls with `n * pollInterval ≥ maxWaitTime`
and `(n - 1) * pollInterval < maxWaitTime`. -/
theorem waitForTransaction_timeout
    (getStatus : Nat → Except String TransactionResponse)
    (transactionId : String) (maxWaitTime pollInterval : Nat)
    (hpi : 0 < pollInterval) (hmax : 0 < maxWaitTime)
    (hall : ∀ i, ∃ si, getStatus i = .ok si ∧
      si.state ≠ "CONFIRMED" ∧ si.state ≠ "FAILED") :
    ∃ n, waitForTransaction getStatus transactionId maxWaitTime pollInterval =
        some (.error (timeoutMessage transactionId maxWaitTime), n) ∧
      0 < n ∧ maxWaitTime ≤ n * pollInterval ∧
      (n - 1) * pollInterval < maxWaitTime := by
  obtain ⟨m, heq, h1, h2, h3⟩ := pollLoop_timeout getStatus transactionId
    maxWaitTime pollInterval hpi (fun i => Or.inl (hall i))
    (maxWaitTime + 1) 0 0 (by omega)
  have hm : 0 < m := by
    rcases Nat.eq_zero_or_pos m with hz | hp
    · exact absurd (h3 hz) (by omega)
    · exact hp
  refine ⟨m, ?_, hm, by simpa using h1, by simpa using h2 hm⟩
  simpa using heq

/-- C3 witness: always `QUEUED`, `maxWaitTime = 500`, `pollInterval = 100`:
the poller times out after issuing 5 polls (≥ 4), at elapsed time 500 ms. -/
theorem waitForTransaction_timeout_witness :
    waitForTransaction (fun _ => .ok ⟨"QUEUED", none, none⟩) "tx-3" 500 100 =
      some (.error (timeoutMessage "tx-3" 500), 5) ∧ 4 ≤ 5 := by
  obtain ⟨n, heq, hpos, hge, hlt⟩ := waitForTransaction_timeout
    (fun _ => .ok ⟨"QUEUED", none, none⟩) "tx-3" 500 100
    (by decide) (by decide)
    (fun i => ⟨⟨"QUEUED", none, none⟩, rfl, by decide, by decide⟩)
  have hn : n = 5 := by omega
  rw [hn] at heq
  exact ⟨heq, by omega⟩

/-- C4 counterexample: the claim says a status-query error is never converted
into a transaction-failure exit and that a later `CONFIRMED` poll still makes
`await` succeed.  But the catch block distinguishes the two cases by substring
matching on the error message: a query error whose message contains
`Transaction failed` is rethrown.  Here the first query throws with such a
message and the second poll would be `CONFIRMED` well within the budget, yet
the poller exits with the query error after a single poll. -/
theorem waitForTransaction_queryError_shortCircuit :
    waitForTransaction
      (fun i => if i == 0 then .error "Transaction failed"
        else .ok ⟨"CONFIRMED", none, none⟩)
      "tx-4" 120000 3000 =
      some (.error (statusQueryErrorMessage "Transaction failed"), 1) ∧
    (fun (i : Nat) => if i == 0 then .error "Transaction failed"
      else (.ok ⟨"CONFIRMED", none, none⟩ : Except String TransactionResponse)) 1 =
      .ok ⟨"CONFIRMED", none, none⟩ ∧
    1 * 3000 < 120000 := by
  refine ⟨?_, rfl, by decide⟩
  decide

/-- C4 amended: a status-query error whose (wrapped) message does not contain
the substring `Transaction failed` is swallowed — the poller sleeps one
interval and retries within the same budget — so if the polls before poll `k`
are non-terminal states or such swallowed query errors and poll `k` observes
`CONFIRMED` before the timeout, `await` still returns successfully. -/
theorem waitForTransaction_transient_tolerance
    (getStatus : Nat → Except String TransactionResponse)
    (transactionId : String) (maxWaitTime pollInterval k : Nat)
    (s : TransactionResponse) (hpi : 0 < pollInterval)
    (hk : k * pollInterval < maxWaitTime)
    (hprev : ∀ i, i < k → keepsPolling (getStatus i))
    (hks : getStatus k = .ok s) (hstate : s.state = "CONFIRMED") :
    waitForTransaction getStatus transactionId maxWaitTime pollInterval =
      some (.ok s, k + 1) :=
  waitForTransaction_confirm_reach getStatus transactionId maxWaitTime
    pollInterval k s hpi hk hprev hks hstate

/-- C4 amended witness: the first status query throws a transient error
(`ECONNRESET`), the second poll returns `CONFIRMED`; the poller succeeds. -/
theorem waitForTransaction_transient_tolerance_witness :
    waitForTransaction
      (fun i => if i == 0 then .error "ECONNRESET"
        else .ok ⟨"CONFIRMED", none, none⟩)
      "tx-5" 120000 3000 = some (.ok ⟨"CONFIRMED", none, none⟩, 2) := by
  have h := waitForTransaction_transient_tolerance
    (fun i => if i == 0 then .error "ECONNRESET"
      else .ok ⟨"CONFIRMED", none, none⟩)
    "tx-5" 120000 3000 1 ⟨"CONFIRMED", none, none⟩
    (by decide) (by decide)
    (fun i hi => by
      have : i = 0 := by omega
      subst this
      exact Or.inr ⟨"ECONNRESET", rfl, by decide⟩)
    rfl rfl
  exact h

/-! ## Ledger — `UserService`
(src/backend/src/services/userService.ts, lines 8-119)

The two in-memory maps (`users` by id, `usersByEmail`) are always kept in sync
by the source, so they are modelled as a single user list.  Fresh uuids and
`Date.now()` values are supplied by the environment. -/

structure User where
  id : String
  email : String
  walletId : Option String
  walletAddress : Option String
  createdAt : Nat
  updatedAt : Nat
deriving Repr, DecidableEq

structure Ledger where
  users : List User
deriving Repr, DecidableEq

def getUserByEmail (ledger : Ledger) (email : String) : Option User :=
  ledger.users.find? (fun u => u.email == email)

def createUser (ledger : Ledger) (email newId : String) (now : Nat) :
    User × Ledger :=
  match getUserByEmail ledger email with
  | some existing => (existing, ledger)
  | none =>
    let u : User := ⟨newId, email, none, none, now, now⟩
    (u, ⟨ledger.users ++ [u]⟩)

def updateUserWallet (ledger : Ledger) (userId walletId walletAddress : String)
    (now : Nat) : Except String (User × Ledger) :=
  match ledger.users.find? (fun u => u.id == userId) with
  | none => .error "Failed to update user wallet: User not found"
  | some u =>
    let u' : User :=
      { u with
        walletId := some walletId
        walletAddress := some walletAddress
        updatedAt := now }
    .ok (u', ⟨ledger.users.map (fun v => if v.id == userId then u' else v)⟩)

/-! ## NFT service data model — `NFTService.mintNFT`
(src/unnamed/part_002; its CircleService collaborator is src/unnamed/part_003) -/

structure CircleWallet where
  id : String
  address : String
  blockchain : String
  accountType : String
deriving Repr, DecidableEq

structure GaslessTxn where
  transactionId : String
  transactionHash : String
  state : String
deriving Repr, DecidableEq

structure NFTMetadata where
  name : String
  description : String
  image : String
deriving Repr, DecidableEq

structure MintNFTRequest where
  email : String
  nftMetadata : NFTMetadata
  blockchain : String
  payWithUSDC : Bool
deriving Repr, DecidableEq

structure MintNFTResponse where
  transactionHash : String
  nftId : String
  contractAddress : String
  walletAddress : String
  blockchain : String
  gasSponsored : Bool
deriving Repr, DecidableEq

structure BlockchainConfig where
  nftContractAddress : String
  usdcContractAddress : String
deriving Repr, DecidableEq

structure IpfsConfig where
  gateway : String
  pinataApiKey : Option String
  pinataSecretKey : Option String
deriving Repr, DecidableEq

structure Config where
  blockchains : List (String × BlockchainConfig)
  ipfs : IpfsConfig
deriving Repr, DecidableEq

/-- JS truthiness of an optional string: `undefined` and `''` are falsy. -/
def jsTruthy (o : Option String) : Bool :=
  match o with
  | none => false
  | some s => !(s == "")

/-- `NFTService.mapToInternalBlockchain` (src/unnamed/part_002, lines 57-67). -/
def mapToInternalBlockchain (blockchain : String) : String :=
  if blockchain == "ETH-SEPOLIA" then "ethereum"
  else if blockchain == "BASE-SEPOLIA" then "base"
  else if blockchain == "ETH" then "ethereum"
  else if blockchain == "BASE" then "base"
  else if blockchain == "MATIC" then "polygon"
  else if blockchain == "MATIC-AMOY" then "polygon"
  else "ethereum"

/-- `NFTService.getBlockchainConfig` (src/unnamed/part_002, lines 152-158). -/
def getBlockchainConfig (cfg : Config) (blockchain : String) :
    Except String BlockchainConfig :=
  match cfg.blockchains.find? (fun p => p.1 == blockchain) with
  | some p => .ok p.2
  | none => .error ("Unsupported blockchain: " ++ blockchain)

/-! ## Metadata publisher — `NFTService.uploadMetadataToIPFS`
(src/unnamed/part_002, lines 72-147)

The Pinata POST is the oracle `pinata`, returning the `IpfsHash` or the
message of a thrown error; `rand` stands for the `Math.random()` suffixes of
the development-mode mock hash. -/

def mockIpfsHash (rand : String) : String :=
  "QmR" ++ rand ++ "Abc"

def createMockIPFS (ipfs : IpfsConfig) (rand : String) : String :=
  ipfs.gateway ++ mockIpfsHash rand

def uploadToPinata (ipfs : IpfsConfig) (pinata : NFTMetadata → Except String String)
    (metadata : NFTMetadata) : Except String String :=
  match pinata metadata with
  | .ok ipfsHash => .ok (ipfs.gateway ++ ipfsHash)
  | .error e => .error e

def uploadMetadataToIPFS (ipfs : IpfsConfig)
    (pinata : NFTMetadata → Except String String) (rand : String)
    (metadata : NFTMetadata) : Except String String :=
  if jsTruthy ipfs.pinataApiKey && jsTruthy ipfs.pinataSecretKey then
    match uploadToPinata ipfs pinata metadata with
    | .ok url => .ok url
    | .error _ => .ok (createMockIPFS ipfs rand)
  else
    .ok (createMockIPFS ipfs rand)

/-! ## Mint orchestrator — `NFTService.mintNFT`
(src/unnamed/part_002, lines 163-295)

External calls are oracles in `MintEnv`; the calls made to the wallet-create
and transaction-execution endpoints are recorded as a `ProviderCall` trace.
The single try/catch wrapping the whole workflow becomes `mintWrap` applied to
the first stage error. -/

inductive ProviderCall where
  | createWallet (blockchains : List String)
  | submitTx (walletId blockchain : String)
deriving Repr, DecidableEq

structure MintEnv where
  cfg : Config
  circleCreateWallet : List String → Except String (List CircleWallet)
  pinataUpload : NFTMetadata → Except String String
  mockRand : String
  usdcPayment : String → Except String Unit
  executeTx : String → String → String → List String → String →
    Except String GaslessTxn
  parseTokenId : String → Except String String
  mockTokenId : Nat
  newUserId : String
  now : Nat

/-- `catch` block of `mintNFT`: `throw new Error('Failed to mint NFT: ' + msg)`. -/
def mintWrap (e : String) : String :=
  "Failed to mint NFT: " ++ e

/-- The tokenId block of `mintNFT` (lines 247-264): parse the receipt for real
transactions, a mock id for dev hashes; parsing errors degrade to `unknown`. -/
def mintTokenId (env : MintEnv) (transaction : GaslessTxn) : String :=
  if !(transaction.transactionHash == "") &&
      !(transaction.transactionHash.startsWith "dev_tx_") then
    match env.parseTokenId transaction.transactionHash with
    | .ok tokenId => tokenId
    | .error _ => "unknown"
  else
    toString (env.mockTokenId % 10000)

/-- Stages of `mintNFT` after the wallet is provisioned: metadata upload,
optional USDC validation, gasless transaction execution, tokenId extraction,
response assembly.  Errors are returned raw, to be wrapped at the single exit. -/
def mintFinish (env : MintEnv) (blockchainConfig : BlockchainConfig)
    (internalBlockchain : String) (user : User) (ledger : Ledger)
    (calls : List ProviderCall) (request : MintNFTRequest) :
    Except String MintNFTResponse × Ledger × List ProviderCall :=
  match uploadMetadataToIPFS env.cfg.ipfs env.pinataUpload env.mockRand
      request.nftMetadata with
  | .error e => (.error e, ledger, calls)
  | .ok metadataUri =>
    match (if request.payWithUSDC then env.usdcPayment (user.walletId.getD "")
        else .ok ()) with
    | .error e => (.error e, ledger, calls)
    | .ok _ =>
      match env.executeTx (user.walletId.getD "")
          blockchainConfig.nftContractAddress "mint(address,string)"
          [user.walletAddress.getD "", metadataUri] "ETH-SEPOLIA" with
      | .error e =>
        (.error e, ledger,
          calls ++ [.submitTx (user.walletId.getD "") "ETH-SEPOLIA"])
      | .ok transaction =>
        (.ok { transactionHash := transaction.transactionHash,
               nftId := mintTokenId env transaction,
               contractAddress := blockchainConfig.nftContractAddress,
               walletAddress := user.walletAddress.getD "",
               blockchain := internalBlockchain,
               gasSponsored := true },
          ledger,
          calls ++ [.submitTx (user.walletId.getD "") "ETH-SEPOLIA"])

/-- Apply the catch-block wrapping to whatever the workflow produced. -/
def wrapFinish (r : Except String MintNFTResponse × Ledger × List ProviderCall) :
    Except String MintNFTResponse × Ledger × List ProviderCall :=
  match r with
  | (.error e, ledger, calls) => (.error (mintWrap e), ledger, calls)
  | (.ok v, ledger, calls) => (.ok v, ledger, calls)

/-- `let user = await getUserByEmail(email); if (!user) user = await
createUser(email)` (lines 180-184). -/
def resolveUser (env : MintEnv) (ledger : Ledger) (email : String) :
    User × Ledger :=
  match getUserByEmail ledger email with
  | some u => (u, ledger)
  | none => createUser ledger email env.newUserId env.now

/-- Wallet provisioning block of `mintNFT` (lines 186-212): a wallet is
created only when the user record lacks a truthy `walletId` or
`walletAddress`; the created wallet for `ETH-SEPOLIA` is persisted onto the
user record.  (The non-`SCA` account type case only logs a warning.) -/
def ensureWalletStage (env : MintEnv) (user0 : User) (ledger1 : Ledger) :
    Except String (User × Ledger) × List ProviderCall :=
  if !(jsTruthy user0.walletId) || !(jsTruthy user0.walletAddress) then
    match env.circleCreateWallet ["ETH-SEPOLIA"] with
    | .error e => (.error e, [.createWallet ["ETH-SEPOLIA"]])
    | .ok wallets =>
      match wallets.find? (fun w => w.blockchain == "ETH-SEPOLIA") with
      | none =>
        (.error "Failed to create SCA wallet for ETH-SEPOLIA",
          [.createWallet ["ETH-SEPOLIA"]])
      | some wallet =>
        (updateUserWallet ledger1 user0.id wallet.id wallet.address env.now,
          [.createWallet ["ETH-SEPOLIA"]])
  else
    (.ok (user0, ledger1), [])

/-- `NFTService.mintNFT`: the requested blockchain is replaced by the constant
`ETH-SEPOLIA` (line 168); the user is resolved or created; the wallet stage,
then the remaining stages; the single catch wraps any stage error. -/
def mintNFT (env : MintEnv) (ledger : Ledger) (request : MintNFTRequest) :
    Except String MintNFTResponse × Ledger × List ProviderCall :=
  match getBlockchainConfig env.cfg (mapToInternalBlockchain "ETH-SEPOLIA") with
  | .error e => (.error (mintWrap e), ledger, [])
  | .ok blockchainConfig =>
    let r := resolveUser env ledger request.email
    match ensureWalletStage env r.1 r.2 with
    | (.error e, calls) => (.error (mintWrap e), r.2, calls)
    | (.ok userLedger, calls) =>
      wrapFinish (mintFinish env blockchainConfig
        (mapToInternalBlockchain "ETH-SEPOLIA") userLedger.1 userLedger.2
        calls request)

theorem wrapFinish_snd
    (r : Except String MintNFTResponse × Ledger × List ProviderCall) :
    (wrapFinish r).2 = r.2 := by
  unfold wrapFinish
  split <;> rfl

theorem mintFinish_ledger_calls (env : MintEnv)
    (blockchainConfig : BlockchainConfig) (internalBlockchain : String)
    (user : User) (ledger : Ledger) (calls : List ProviderCall)
    (request : MintNFTRequest) :
    (mintFinish env blockchainConfig internalBlockchain user ledger calls
      request).2.1 = ledger ∧
    ((mintFinish env blockchainConfig internalBlockchain user ledger calls
        request).2.2 = calls ∨
      (mintFinish env blockchainConfig internalBlockchain user ledger calls
        request).2.2 =
        calls ++ [.submitTx (user.walletId.getD "") "ETH-SEPOLIA"]) := by
  unfold mintFinish
  split
  · exact ⟨rfl, Or.inl rfl⟩
  · split
    · exact ⟨rfl, Or.inl rfl⟩
    · split
      · exact ⟨rfl, Or.inr rfl⟩
      · exact ⟨rfl, Or.inr rfl⟩

theorem ensureWalletStage_reuse (env : MintEnv) (user0 : User)
    (ledger1 : Ledger) (hid : jsTruthy user0.walletId = true)
    (haddr : jsTruthy user0.walletAddress = true) :
    ensureWalletStage env user0 ledger1 = (.ok (user0, ledger1), []) := by
  unfold ensureWalletStage
  rw [hid, haddr]
  rfl

theorem ensureWalletStage_calls (env : MintEnv) (user0 : User)
    (ledger1 : Ledger) :
    (ensureWalletStage env user0 ledger1).2 = [] ∨
    (ensureWalletStage env user0 ledger1).2 =
      [ProviderCall.createWallet ["ETH-SEPOLIA"]] := by
  unfold ensureWalletStage
  split
  · split
    · exact Or.inr rfl
    · split
      · exact Or.inr rfl
      · exact Or.inr rfl
  · exact Or.inl rfl

/-- C5: a mint for a user whose record already carries a (truthy) `walletId`
and `walletAddress` reuses the cached pair: the wallet-create endpoint is never
invoked, the Ledger is left entirely unchanged (in particular the user's wallet
fields), and any transaction submitted uses the cached `walletId`. -/
theorem mintNFT_wallet_reuse (env : MintEnv) (ledger : Ledger)
    (request : MintNFTRequest) (u : User) (w a : String)
    (hu : getUserByEmail ledger request.email = some u)
    (hw : u.walletId = some w) (hw' : w ≠ "")
    (ha : u.walletAddress = some a) (ha' : a ≠ "") :
    (mintNFT env ledger request).2.1 = ledger ∧
    (∀ bs, ProviderCall.createWallet bs ∉ (mintNFT env ledger request).2.2) ∧
    (∀ wid c, ProviderCall.submitTx wid c ∈ (mintNFT env ledger request).2.2 →
      wid = w) := by
  have hid : jsTruthy u.walletId = true := by
    rw [hw]
    simp [jsTruthy, hw']
  have haddr : jsTruthy u.walletAddress = true := by
    rw [ha]
    simp [jsTruthy, ha']
  have hres : resolveUser env ledger request.email = (u, ledger) := by
    unfold resolveUser
    rw [hu]
  have hgetd : u.walletId.getD "" = w := by rw [hw]; rfl
  unfold mintNFT
  split
  · refine ⟨rfl, ?_, ?_⟩
    · intro bs hmem
      simp at hmem
    · intro wid c hmem
      simp at hmem
  · rename_i blockchainConfig heq
    simp only [hres]
    rw [ensureWalletStage_reuse env u ledger hid haddr]
    rcases mintFinish_ledger_calls env blockchainConfig
      (mapToInternalBlockchain "ETH-SEPOLIA") u ledger [] request with ⟨hl, hc⟩
    have hsnd := wrapFinish_snd (mintFinish env blockchainConfig
      (mapToInternalBlockchain "ETH-SEPOLIA") u ledger [] request)
    refine ⟨?_, ?_, ?_⟩
    · show (wrapFinish _).2.1 = ledger
      rw [hsnd]
      exact hl
    · intro bs hmem
      rw [show (wrapFinish (mintFinish env blockchainConfig
        (mapToInternalBlockchain "ETH-SEPOLIA") u ledger [] request)).2.2 =
          (mintFinish env blockchainConfig
            (mapToInternalBlockchain "ETH-SEPOLIA") u ledger [] request).2.2
        from congrArg Prod.snd hsnd] at hmem
      rcases hc with hc | hc <;> rw [hc] at hmem <;> simp at hmem
    · intro wid c hmem
      rw [show (wrapFinish (mintFinish env blockchainConfig
        (mapToInternalBlockchain "ETH-SEPOLIA") u ledger [] request)).2.2 =
          (mintFinish env blockchainConfig
            (mapToInternalBlockchain "ETH-SEPOLIA") u ledger [] request).2.2
        from congrArg Prod.snd hsnd] at hmem
      rcases hc with hc | hc
      · rw [hc] at hmem
        simp at hmem
      · rw [hc] at hmem
        simp at hmem
        rw [← hgetd, hmem.1]

def reuseUser : User := ⟨"u1", "a@x.com", some "w1", some "0xaddr", 0, 0⟩

def reuseLedger : Ledger := ⟨[reuseUser]⟩

def reuseEnv : MintEnv :=
  ⟨⟨[("ethereum", ⟨"0xcontract", "0xusdc"⟩)], ⟨"https://ipfs.io/ipfs/", none, none⟩⟩,
    fun _ => .error "create endpoint must not be called",
    fun _ => .error "unconfigured",
    "r",
    fun _ => .ok (),
    fun _ _ _ _ _ => .ok ⟨"t1", "0xhash", "CONFIRMED"⟩,
    fun _ => .ok "7",
    3, "u2", 5⟩

def reuseRequest : MintNFTRequest :=
  ⟨"a@x.com", ⟨"N1", "d", "img"⟩, "BASE-SEPOLIA", false⟩

/-- C5 witness: a user with an attached wallet; the mint leaves the Ledger
unchanged and never calls the wallet-create endpoint. -/
theorem mintNFT_wallet_reuse_witness :
    (mintNFT reuseEnv reuseLedger reuseRequest).2.1 = reuseLedger ∧
    ProviderCall.createWallet ["ETH-SEPOLIA"] ∉
      (mintNFT reuseEnv reuseLedger reuseRequest).2.2 := by
  have h := mintNFT_wallet_reuse reuseEnv reuseLedger reuseRequest reuseUser
    "w1" "0xaddr" rfl rfl (by decide) rfl (by decide)
  exact ⟨h.1, h.2.1 ["ETH-SEPOLIA"]⟩

/-- The catch-block wrapper: an error surfaced by `wrapFinish` is always the
single wrapped mint error. -/
theorem wrapFinish_error
    (r : Except String MintNFTResponse × Ledger × List ProviderCall)
    (m : String) (h : (wrapFinish r).1 = .error m) : ∃ c, m = mintWrap c := by
  unfold wrapFinish at h
  split at h
  · rename_i e ledger calls
    refine ⟨e, ?_⟩
    injection h with h
    exact h.symm
  · rename_i v ledger calls
    exact absurd h (by simp)

theorem ensureWalletStage_createFail (env : MintEnv) (user0 : User)
    (ledger1 : Ledger) (e : String)
    (hnw : jsTruthy user0.walletId = false)
    (hcw : env.circleCreateWallet ["ETH-SEPOLIA"] = .error e) :
    ensureWalletStage env user0 ledger1 =
      (.error e, [.createWallet ["ETH-SEPOLIA"]]) := by
  unfold ensureWalletStage
  rw [hnw]
  simp only [Bool.not_false, Bool.true_or, if_true]
  rw [hcw]

def stageFailEnvWallet : MintEnv :=
  ⟨⟨[("ethereum", ⟨"0xcontract", "0xusdc"⟩)], ⟨"https://ipfs.io/ipfs/", none, none⟩⟩,
    fun _ => .error "boom",
    fun _ => .error "unconfigured",
    "r",
    fun _ => .ok (),
    fun _ _ _ _ _ => .ok ⟨"t1", "0xhash", "CONFIRMED"⟩,
    fun _ => .ok "7",
    3, "u1", 0⟩

def stageFailEnvSubmit : MintEnv :=
  ⟨⟨[("ethereum", ⟨"0xcontract", "0xusdc"⟩)], ⟨"https://ipfs.io/ipfs/", none, none⟩⟩,
    fun _ => .ok [⟨"w1", "0xaddr", "ETH-SEPOLIA", "SCA"⟩],
    fun _ => .error "unconfigured",
    "r",
    fun _ => .ok (),
    fun _ _ _ _ _ => .error "boom",
    fun _ => .ok "7",
    3, "u1", 0⟩

def stageFailLedgerEmpty : Ledger := ⟨[]⟩

def stageFailLedgerWallet : Ledger :=
  ⟨[⟨"u1", "a@x.com", some "w1", some "0xaddr", 0, 0⟩]⟩

def stageFailRequest : MintNFTRequest :=
  ⟨"a@x.com", ⟨"N1", "d", "img"⟩, "ETH-SEPOLIA", false⟩

/-- C9 counterexample: two mints that fail in different stages — the first in
wallet creation (only a create call is traced), the second in transaction
submission (only a submit call is traced) — with the same underlying cause
message produce the identical wrapped error `Failed to mint NFT: boom`.  The
wrapped error carries no stage name, so the caller cannot distinguish which
stage failed from the error alone, contrary to the claim. -/
theorem mintNFT_error_lacks_stage :
    (mintNFT stageFailEnvWallet stageFailLedgerEmpty stageFailRequest).1 =
      .error "Failed to mint NFT: boom" ∧
    (mintNFT stageFailEnvSubmit stageFailLedgerWallet stageFailRequest).1 =
      .error "Failed to mint NFT: boom" ∧
    (mintNFT stageFailEnvWallet stageFailLedgerEmpty stageFailRequest).2.2 =
      [ProviderCall.createWallet ["ETH-SEPOLIA"]] ∧
    (mintNFT stageFailEnvSubmit stageFailLedgerWallet stageFailRequest).2.2 =
      [ProviderCall.submitTx "w1" "ETH-SEPOLIA"] := by
  refine ⟨rfl, rfl, rfl, rfl⟩

/-- C9 amended: any stage error aborts the remaining stages and is re-raised
as the single wrapped error `Failed to mint NFT: <cause message>`; the wrapper
carries the underlying cause's message but not the failing stage's name.  In
particular every error exit of `mintNFT` has this shape, and a wallet-creation
failure prevents any transaction submission. -/
theorem mintNFT_error_wrapping :
    (∀ env ledger request m, (mintNFT env ledger request).1 = .error m →
      ∃ c, m = "Failed to mint NFT: " ++ c) ∧
    (∀ env ledger request e bc,
      getBlockchainConfig env.cfg (mapToInternalBlockchain "ETH-SEPOLIA") =
        .ok bc →
      jsTruthy (resolveUser env ledger request.email).1.walletId = false →
      env.circleCreateWallet ["ETH-SEPOLIA"] = .error e →
      (mintNFT env ledger request).1 =
        .error ("Failed to mint NFT: " ++ e) ∧
      ∀ wid c, ProviderCall.submitTx wid c ∉
        (mintNFT env ledger request).2.2) := by
  constructor
  · intro env ledger request m h
    unfold mintNFT at h
    split at h
    · rename_i e heq
      refine ⟨e, ?_⟩
      injection h with h
      exact h.symm
    · rename_i bc heq
      dsimp only at h
      split at h
      · rename_i e calls hew
        refine ⟨e, ?_⟩
        injection h with h
        exact h.symm
      · rename_i ul calls hew
        exact wrapFinish_error _ m h
  · intro env ledger request e bc hbc hnw hcw
    have hew := ensureWalletStage_createFail env
      (resolveUser env ledger request.email).1
      (resolveUser env ledger request.email).2 e hnw hcw
    simp only [mintNFT, hbc, hew]
    exact ⟨rfl, fun wid c hmem => by simp at hmem⟩

/-- C9 amended witness: a failing wallet-create stage yields exactly the
wrapped error and no transaction submission. -/
theorem mintNFT_error_wrapping_witness :
    (mintNFT stageFailEnvWallet stageFailLedgerEmpty stageFailRequest).1 =
      .error ("Failed to mint NFT: " ++ "boom") ∧
    ∀ wid c, ProviderCall.submitTx wid c ∉
      (mintNFT stageFailEnvWallet stageFailLedgerEmpty stageFailRequest).2.2 :=
  mintNFT_error_wrapping.2 stageFailEnvWallet stageFailLedgerEmpty
    stageFailRequest "boom" ⟨"0xcontract", "0xusdc"⟩ rfl rfl rfl

/-- Every provider call made by a mint targets `ETH-SEPOLIA`: the trace is one
of four shapes, all of whose entries carry the substituted chain. -/
theorem mintNFT_calls_cases (env : MintEnv) (ledger : Ledger)
    (request : MintNFTRequest) :
    (mintNFT env ledger request).2.2 = [] ∨
    (mintNFT env ledger request).2.2 =
      [ProviderCall.createWallet ["ETH-SEPOLIA"]] ∨
    (∃ wid, (mintNFT env ledger request).2.2 =
      [ProviderCall.createWallet ["ETH-SEPOLIA"],
        ProviderCall.submitTx wid "ETH-SEPOLIA"]) ∨
    (∃ wid, (mintNFT env ledger request).2.2 =
      [ProviderCall.submitTx wid "ETH-SEPOLIA"]) := by
  unfold mintNFT
  split
  · exact Or.inl rfl
  · rename_i bc heq
    dsimp only
    split
    · rename_i e calls hew
      have h2 := congrArg Prod.snd hew
      rcases ensureWalletStage_calls env (resolveUser env ledger request.email).1
        (resolveUser env ledger request.email).2 with hc | hc
      · have hcalls : calls = [] := h2.symm.trans hc
        exact Or.inl hcalls
      · have hcalls : calls = [ProviderCall.createWallet ["ETH-SEPOLIA"]] :=
          h2.symm.trans hc
        exact Or.inr (Or.inl hcalls)
    · rename_i ul calls hew
      have h2 := congrArg Prod.snd hew
      have hsnd := congrArg Prod.snd (wrapFinish_snd (mintFinish env bc
        (mapToInternalBlockchain "ETH-SEPOLIA") ul.1 ul.2 calls request))
      rcases (mintFinish_ledger_calls env bc
        (mapToInternalBlockchain "ETH-SEPOLIA") ul.1 ul.2 calls request).2
        with hf | hf
      · rcases ensureWalletStage_calls env
          (resolveUser env ledger request.email).1
          (resolveUser env ledger request.email).2 with hc | hc
        · have hcalls : calls = [] := h2.symm.trans hc
          exact Or.inl (by rw [hsnd, hf, hcalls])
        · have hcalls : calls = [ProviderCall.createWallet ["ETH-SEPOLIA"]] :=
            h2.symm.trans hc
          exact Or.inr (Or.inl (by rw [hsnd, hf, hcalls]))
      · rcases ensureWalletStage_calls env
          (resolveUser env ledger request.email).1
          (resolveUser env ledger request.email).2 with hc | hc
        · have hcalls : calls = [] := h2.symm.trans hc
          refine Or.inr (Or.inr (Or.inr ⟨ul.1.walletId.getD "", ?_⟩))
          rw [hsnd, hf, hcalls]
          rfl
        · have hcalls : calls = [ProviderCall.createWallet ["ETH-SEPOLIA"]] :=
            h2.symm.trans hc
          refine Or.inr (Or.inr (Or.inl ⟨ul.1.walletId.getD "", ?_⟩))
          rw [hsnd, hf, hcalls]
          rfl

/-- C10: the mint orchestrator ignores the request's target-chain field: the
result (response, ledger and provider-call trace) is unchanged when only the
requested blockchain differs, and every wallet-create and submit call it makes
targets the substituted chain `ETH-SEPOLIA`. -/
theorem mintNFT_ignores_requested_chain (env : MintEnv) (ledger : Ledger)
    (request : MintNFTRequest) (b : String) :
    mintNFT env ledger { request with blockchain := b } =
      mintNFT env ledger request ∧
    (∀ bs, ProviderCall.createWallet bs ∈ (mintNFT env ledger request).2.2 →
      bs = ["ETH-SEPOLIA"]) ∧
    (∀ wid c, ProviderCall.submitTx wid c ∈ (mintNFT env ledger request).2.2 →
      c = "ETH-SEPOLIA") := by
  refine ⟨?_, ?_, ?_⟩
  · cases request
    rfl
  · intro bs hmem
    rcases mintNFT_calls_cases env ledger request with h | h | ⟨wid, h⟩ | ⟨wid, h⟩ <;>
      rw [h] at hmem <;> simp at hmem
    · exact hmem
    · exact hmem
  · intro wid c hmem
    rcases mintNFT_calls_cases env ledger request with h | h | ⟨wid', h⟩ | ⟨wid', h⟩ <;>
      rw [h] at hmem <;> simp at hmem
    · exact hmem.2
    · exact hmem.2

/-- C10 witness: a mint request for `BASE-SEPOLIA` behaves identically to the
same request for `MATIC-AMOY`, and its submit call targets `ETH-SEPOLIA`. -/
theorem mintNFT_ignores_requested_chain_witness :
    mintNFT reuseEnv reuseLedger
        { reuseRequest with blockchain := "MATIC-AMOY" } =
      mintNFT reuseEnv reuseLedger reuseRequest ∧
    "ETH-SEPOLIA" = "ETH-SEPOLIA" := by
  have h := mintNFT_ignores_requested_chain reuseEnv reuseLedger reuseRequest
    "MATIC-AMOY"
  exact ⟨h.1, h.2.2 "w1" "ETH-SEPOLIA" (by decide)⟩

/-- C6: the metadata publisher never raises — it always returns `.ok` some
URI — and whenever Pinata is unconfigured (either credential missing or empty)
or the pinning upload throws, the returned URI is the placeholder: the gateway
base followed by the generated mock hash. -/
theorem uploadMetadataToIPFS_never_fails (ipfs : IpfsConfig)
    (pinata : NFTMetadata → Except String String) (rand : String)
    (metadata : NFTMetadata) :
    (∃ uri, uploadMetadataToIPFS ipfs pinata rand metadata = .ok uri) ∧
    ((jsTruthy ipfs.pinataApiKey = false ∨ jsTruthy ipfs.pinataSecretKey = false ∨
        (∃ e, pinata metadata = .error e)) →
      uploadMetadataToIPFS ipfs pinata rand metadata =
        .ok (ipfs.gateway ++ mockIpfsHash rand)) := by
  constructor
  · unfold uploadMetadataToIPFS
    split
    · split
      · rename_i url hup
        exact ⟨url, rfl⟩
      · exact ⟨createMockIPFS ipfs rand, rfl⟩
    · exact ⟨createMockIPFS ipfs rand, rfl⟩
  · intro hcase
    unfold uploadMetadataToIPFS
    split
    · rename_i hconf
      split
      · rename_i url hup
        rcases hcase with hk | hk | ⟨e, he⟩
        · rw [hk] at hconf
          simp at hconf
        · rw [hk] at hconf
          simp at hconf
        · unfold uploadToPinata at hup
          rw [he] at hup
          exact absurd hup (by simp)
      · rfl
    · rfl

/-- C6 witness: with no Pinata credentials, publishing returns the placeholder
URI built from the gateway and the mock hash. -/
theorem uploadMetadataToIPFS_never_fails_witness :
    uploadMetadataToIPFS ⟨"https://ipfs.io/ipfs/", none, none⟩
        (fun _ => .error "x") "abc123" ⟨"N1", "d", "img"⟩ =
      .ok ("https://ipfs.io/ipfs/" ++ mockIpfsHash "abc123") :=
  (uploadMetadataToIPFS_never_fails ⟨"https://ipfs.io/ipfs/", none, none⟩
    (fun _ => .error "x") "abc123" ⟨"N1", "d", "img"⟩).2 (Or.inl rfl)

/-! ## Receipt parser — `BlockchainService.getTokenIdFromTransaction`
(src/unnamed/part_001, lines 478-512)

`fetchReceipt` is the oracle for `getProvider` + `getTransactionReceipt`
(`.error` for any thrown error, `.ok none` for a null receipt); `parseLog` is
the oracle for `contract.interface.parseLog`, returning `none` for the logs
whose decoding throws. -/

abbrev RawLog := Nat

structure ParsedEvent where
  name : String
  tokenId : Nat
deriving Repr, DecidableEq

structure TxReceipt where
  logs : List RawLog
deriving Repr, DecidableEq

def getTokenIdFromTransaction (fetchReceipt : Except String (Option TxReceipt))
    (parseLog : RawLog → Option ParsedEvent) : String :=
  match fetchReceipt with
  | .error _ => "pending"
  | .ok none => "pending"
  | .ok (some receipt) =>
    match (receipt.logs.filterMap parseLog).filter
        (fun ev => ev.name == "NFTMinted") with
    | [] => "pending"
    | ev :: _ => toString ev.tokenId

/-- C7: the receipt parser never raises: a fetch/decode error or a missing
receipt degrades to the sentinel `pending`; when no decoded log is an
`NFTMinted` event (per-log decode failures are skipped by `parseLog` returning
`none`) it returns `pending`; and when matching mint events exist it returns
the first one's numeric token id as a string. -/
theorem getTokenIdFromTransaction_degrades :
    (∀ parseLog e, getTokenIdFromTransaction (.error e) parseLog = "pending") ∧
    (∀ parseLog, getTokenIdFromTransaction (.ok none) parseLog = "pending") ∧
    (∀ parseLog receipt,
      (receipt.logs.filterMap parseLog).filter
        (fun ev => ev.name == "NFTMinted") = [] →
      getTokenIdFromTransaction (.ok (some receipt)) parseLog = "pending") ∧
    (∀ parseLog receipt ev rest,
      (receipt.logs.filterMap parseLog).filter
        (fun ev => ev.name == "NFTMinted") = ev :: rest →
      getTokenIdFromTransaction (.ok (some receipt)) parseLog =
        toString ev.tokenId) := by
  refine ⟨fun _ _ => rfl, fun _ => rfl, ?_, ?_⟩
  · intro parseLog receipt h
    unfold getTokenIdFromTransaction
    dsimp only
    rw [h]
  · intro parseLog receipt ev rest h
    unfold getTokenIdFromTransaction
    dsimp only
    rw [h]

/-- C7 witness: a decode failure on the first log is skipped, a non-mint event
is filtered out, and the `NFTMinted` event yields its token id; a receipt with
zero logs yields `pending`; a missing receipt yields `pending`. -/
theorem getTokenIdFromTransaction_degrades_witness :
    getTokenIdFromTransaction (.ok (some ⟨[0, 1, 2]⟩))
      (fun log => if log == 1 then some ⟨"Transfer", 9⟩
        else if log == 2 then some ⟨"NFTMinted", 42⟩ else none) = "42" ∧
    getTokenIdFromTransaction (.ok (some ⟨[]⟩))
      (fun _ => some ⟨"NFTMinted", 42⟩) = "pending" ∧
    getTokenIdFromTransaction (.ok none)
      (fun _ => some ⟨"NFTMinted", 42⟩) = "pending" := by
  refine ⟨?_, ?_, ?_⟩
  · exact getTokenIdFromTransaction_degrades.2.2.2
      (fun log => if log == 1 then some ⟨"Transfer", 9⟩
        else if log == 2 then some ⟨"NFTMinted", 42⟩ else none)
      ⟨[0, 1, 2]⟩ ⟨"NFTMinted", 42⟩ [] (by decide)
  · exact getTokenIdFromTransaction_degrades.2.2.1
      (fun _ => some ⟨"NFTMinted", 42⟩) ⟨[]⟩ (by decide)
  · exact getTokenIdFromTransaction_degrades.2.1
      (fun _ => some ⟨"NFTMinted", 42⟩)

/-! ## Batch mint — `POST /batch-mint` handler
(src/unnamed/part_006, lines 144-208)

Each item's `nftService.mintNFT` call is the oracle `mint`; the loop body and
the aggregation into the response payload follow the handler: results and
errors are accumulated in iteration order, `payWithUSDC` is forwarded only for
item 0, and one item's failure only records a per-item error (with the item's
index and name) without aborting the following items.  The fixed 1000 ms
inter-item delay has no observable effect in the model. -/

structure BatchError where
  index : Nat
  nftName : String
  error : String
deriving Repr, DecidableEq

structure BatchMintData where
  successful : List MintNFTResponse
  errors : List BatchError
  totalRequested : Nat
  totalSuccessful : Nat
  totalFailed : Nat
deriving Repr, DecidableEq

def batchItemRequest (email blockchain : String) (payWithUSDC : Bool) (i : Nat)
    (metadata : NFTMetadata) : MintNFTRequest :=
  ⟨email, metadata, blockchain, if i == 0 then payWithUSDC else false⟩

def batchMintLoop (mint : MintNFTRequest → Except String MintNFTResponse)
    (email blockchain : String) (payWithUSDC : Bool) :
    Nat → List NFTMetadata → List MintNFTResponse × List BatchError
  | _, [] => ([], [])
  | i, metadata :: rest =>
    let tail := batchMintLoop mint email blockchain payWithUSDC (i + 1) rest
    match mint (batchItemRequest email blockchain payWithUSDC i metadata) with
    | .ok result => (result :: tail.1, tail.2)
    | .error e => (tail.1, ⟨i, metadata.name, e⟩ :: tail.2)

def batchMint (mint : MintNFTRequest → Except String MintNFTResponse)
    (email : String) (nfts : List NFTMetadata) (blockchain : String)
    (payWithUSDC : Bool) : BatchMintData :=
  let rs := batchMintLoop mint email blockchain payWithUSDC 0 nfts
  ⟨rs.1, rs.2, nfts.length, rs.1.length, rs.2.length⟩

theorem batchMintLoop_eq (mint : MintNFTRequest → Except String MintNFTResponse)
    (email blockchain : String) (payWithUSDC : Bool) :
    ∀ (nfts : List NFTMetadata) (i : Nat),
    batchMintLoop mint email blockchain payWithUSDC i nfts =
      ((List.enumFrom i nfts).filterMap (fun p =>
        match mint (batchItemRequest email blockchain payWithUSDC p.1 p.2) with
        | .ok result => some result
        | .error _ => none),
      (List.enumFrom i nfts).filterMap (fun p =>
        match mint (batchItemRequest email blockchain payWithUSDC p.1 p.2) with
        | .ok _ => none
        | .error e => some ⟨p.1, p.2.name, e⟩)) := by
  intro nfts
  induction nfts with
  | nil => intro i; rfl
  | cons metadata rest ih =>
    intro i
    rw [batchMintLoop, ih (i + 1)]
    rw [List.enumFrom_cons]
    cases hm : mint (batchItemRequest email blockchain payWithUSDC i metadata) <;>
      simp [List.filterMap_cons, hm]

theorem batchMintLoop_length
    (mint : MintNFTRequest → Except String MintNFTResponse)
    (email blockchain : String) (payWithUSDC : Bool) :
    ∀ (nfts : List NFTMetadata) (i : Nat),
    (batchMintLoop mint email blockchain payWithUSDC i nfts).1.length +
      (batchMintLoop mint email blockchain payWithUSDC i nfts).2.length =
      nfts.length := by
  intro nfts
  induction nfts with
  | nil => intro i; rfl
  | cons metadata rest ih =>
    intro i
    rw [batchMintLoop]
    cases hm : mint (batchItemRequest email blockchain payWithUSDC i metadata) <;>
      simp only [List.length_cons] <;>
      have := ih (i + 1) <;> omega

/-- C8: the batch handler processes the items serially in list order and one
item's error does not abort the rest: the successes are exactly the in-order
results of the succeeding items, the errors are exactly the in-order per-item
records (index, item name, message) of the failing items, and the totals
satisfy `totalSuccessful + totalFailed = totalRequested = nfts.length`. -/
theorem batchMint_partial_failure
    (mint : MintNFTRequest → Except String MintNFTResponse) (email : String)
    (nfts : List NFTMetadata) (blockchain : String) (payWithUSDC : Bool) :
    (batchMint mint email nfts blockchain payWithUSDC).totalSuccessful +
        (batchMint mint email nfts blockchain payWithUSDC).totalFailed =
      (batchMint mint email nfts blockchain payWithUSDC).totalRequested ∧
    (batchMint mint email nfts blockchain payWithUSDC).totalRequested =
      nfts.length ∧
    (batchMint mint email nfts blockchain payWithUSDC).totalSuccessful =
      (batchMint mint email nfts blockchain payWithUSDC).successful.length ∧
    (batchMint mint email nfts blockchain payWithUSDC).totalFailed =
      (batchMint mint email nfts blockchain payWithUSDC).errors.length ∧
    (batchMint mint email nfts blockchain payWithUSDC).successful =
      (List.enumFrom 0 nfts).filterMap (fun p =>
        match mint (batchItemRequest email blockchain payWithUSDC p.1 p.2) with
        | .ok result => some result
        | .error _ => none) ∧
    (batchMint mint email nfts blockchain payWithUSDC).errors =
      (List.enumFrom 0 nfts).filterMap (fun p =>
        match mint (batchItemRequest email blockchain payWithUSDC p.1 p.2) with
        | .ok _ => none
        | .error e => some ⟨p.1, p.2.name, e⟩) := by
  have hloop := batchMintLoop_eq mint email blockchain payWithUSDC nfts 0
  have hsucc : (batchMint mint email nfts blockchain payWithUSDC).successful =
      (batchMintLoop mint email blockchain payWithUSDC 0 nfts).1 := rfl
  have herr : (batchMint mint email nfts blockchain payWithUSDC).errors =
      (batchMintLoop mint email blockchain payWithUSDC 0 nfts).2 := rfl
  refine ⟨?_, rfl, rfl, rfl, ?_, ?_⟩
  · exact batchMintLoop_length mint email blockchain payWithUSDC nfts 0
  · rw [hsucc, hloop]
  · rw [herr, hloop]

/-- C8 witness: a 3-item batch where only item 2's submission throws — items 1
and 3 still complete, the failure is recorded with index 1 and the item's
name, and the totals are `totalSuccessful = 2`, `totalFailed = 1`. -/
theorem batchMint_partial_failure_witness :
    batchMint
        (fun req => if req.nftMetadata.name == "B" then .error "submit boom"
          else .ok ⟨"0xh", req.nftMetadata.name, "0xc", "0xa", "ethereum", true⟩)
        "a@x.com" [⟨"A", "d", "i"⟩, ⟨"B", "d", "i"⟩, ⟨"C", "d", "i"⟩]
        "ETH-SEPOLIA" false =
      ⟨[⟨"0xh", "A", "0xc", "0xa", "ethereum", true⟩,
        ⟨"0xh", "C", "0xc", "0xa", "ethereum", true⟩],
        [⟨1, "B", "submit boom"⟩], 3, 2, 1⟩ ∧
    (batchMint
        (fun req => if req.nftMetadata.name == "B" then .error "submit boom"
          else .ok ⟨"0xh", req.nftMetadata.name, "0xc", "0xa", "ethereum", true⟩)
        "a@x.com" [⟨"A", "d", "i"⟩, ⟨"B", "d", "i"⟩, ⟨"C", "d", "i"⟩]
        "ETH-SEPOLIA" false).totalSuccessful +
      (batchMint
        (fun req => if req.nftMetadata.name == "B" then .error "submit boom"
          else .ok ⟨"0xh", req.nftMetadata.name, "0xc", "0xa", "ethereum", true⟩)
        "a@x.com" [⟨"A", "d", "i"⟩, ⟨"B", "d", "i"⟩, ⟨"C", "d", "i"⟩]
        "ETH-SEPOLIA" false).totalFailed = 3 := by
  refine ⟨by decide, ?_⟩
  have h := batchMint_partial_failure
    (fun req => if req.nftMetadata.name == "B" then .error "submit boom"
      else .ok ⟨"0xh", req.nftMetadata.name, "0xc", "0xa", "ethereum", true⟩)
    "a@x.com" [⟨"A", "d", "i"⟩, ⟨"B", "d", "i"⟩, ⟨"C", "d", "i"⟩]
    "ETH-SEPOLIA" false
  rw [h.1, h.2.1]
  rfl

end GaslessNFT
